import Mathlib

/-!
# Verification of `consul_lock` (python-consul-lock)

Shallow embedding of `src/consul_lock/lock_impl.py` and
`src/consul_lock/defaults.py`.

The store (Consul client) is modelled by the observable outcomes of the
store calls an `EphemeralLock` can make during its lifetime: the result of
`session.create` (either a session id or a raised store error), the result
of each `kv.put` call indexed by the loop's attempt number (a boolean, or a
raised store error), and the result of `session.destroy`.  Wall-clock time
is modelled by a function giving, for each loop iteration, the elapsed
milliseconds measured at that iteration (`int(round(1000 * (time.time() -
start_time)))` in the source).

Python exceptions are modelled as explicit outcome constructors; python
`assert` failures are `assertionError` outcomes.  Each operation returns a
trace recording, besides the outcome and the post-state, the store calls it
performed (session creations, put attempts, session destructions) and the
sleeps that were executed.
-/

/-- An error raised by the store itself (connectivity loss etc.); carried
opaquely and propagated unmodified. -/
structure StoreError where
  msg : String
deriving Repr, DecidableEq

/-- The consul client handed to the lock, modelled by the outcomes of the
store calls made during one lock's lifetime.  `putResult n` is the outcome
of the conditional put performed on loop attempt `n`. -/
structure ConsulClient where
  sessionCreateResult : Except StoreError String
  putResult : Nat → Except StoreError Bool
  destroyResult : Option String → Bool

/-- The module-level mutable defaults of `defaults.py`.  The key pattern
`'locks/ephemeral/%s'` is modelled as the substitution function it
denotes. -/
structure Defaults where
  consul_client : Option ConsulClient
  acquire_timeout_ms : Option Int
  lock_timeout_seconds : Option Int
  lock_key_pattern : String → String

/-- The stock values of `defaults.py`: `consul_client = None`,
`acquire_timeout_ms = 0`, `lock_timeout_seconds = 60 * 3`,
`lock_key_pattern = 'locks/ephemeral/%s'`. -/
def stockDefaults (client : Option ConsulClient) : Defaults :=
  { consul_client := client
    acquire_timeout_ms := some 0
    lock_timeout_seconds := some (60 * 3)
    lock_key_pattern := fun k => "locks/ephemeral/" ++ k }

/-- Errors raised during `EphemeralLock.__init__`. -/
inductive InitError
  | requiredMissing (attr : String)
  | assertionError (msg : String)
deriving Repr, DecidableEq

/-- `_coerce_required(value, attr_name)`: return `value` if it is not
`None`, else the default from `defaults.py` if that is not `None`, else
raise `Exception('%s is required for locking.')`. -/
def coerce_required (value dflt : Option α) (attr : String) : Except InitError α :=
  match value with
  | some v => .ok v
  | none =>
    match dflt with
    | some d => .ok d
    | none => .error (.requiredMissing attr)

/-- The state of one `EphemeralLock` instance. -/
structure EphemeralLock where
  consul : ConsulClient
  key : String
  full_key : String
  lock_timeout_seconds : Int
  acquire_timeout_ms : Int
  session_id : Option String
  started_locking : Bool

/-- `EphemeralLock.__init__`: coerce the client, assert the key is
non-empty (python truthiness of a string), render `full_key` through the
pattern, coerce the two timeouts, initialise `session_id = None` and
`_started_locking = False`, and finally assert
`10 <= lock_timeout_seconds <= 3600`. -/
def EphemeralLock.init (key : String) (acquire_timeout_ms : Option Int)
    (lock_timeout_seconds : Option Int) (consul_client : Option ConsulClient)
    (d : Defaults) : Except InitError EphemeralLock := do
  let consul ← coerce_required consul_client d.consul_client "consul_client"
  if key = "" then
    .error (.assertionError "key is required for locking.")
  else
    let full_key := d.lock_key_pattern key
    let lts ← coerce_required lock_timeout_seconds d.lock_timeout_seconds
      "lock_timeout_seconds"
    let atm ← coerce_required acquire_timeout_ms d.acquire_timeout_ms
      "acquire_timeout_ms"
    if 10 ≤ lts ∧ lts ≤ 3600 then
      .ok ⟨consul, key, full_key, lts, atm, none, false⟩
    else
      .error (.assertionError
        "lock_timeout_seconds must be between 10 and 3600 to due to Consul session ttl settings")

/-- Arguments of the `session.create` call made by `acquire`. -/
structure SessionParams where
  lock_delay : Int
  ttl : Int
  behavior : String
deriving Repr, DecidableEq

/-- A sleep executed by the retry loop: the attempt number during which it
was performed and the slept duration in ms (after clamping). -/
structure SleepEvent where
  attempt : Nat
  sleep_ms : Int
deriving Repr, DecidableEq

/-- The backoff delay computed by the loop for attempt `n` before
clamping: `sleep_ms = 50 * pow(attempt_number, 2)`. -/
def backoff_ms (n : Nat) : Int := 50 * (n : Int) ^ 2

/-- Result of the `for attempt_number in range(0, max_loop_iter)` loop. -/
structure LoopResult where
  is_success : Bool
  put_attempts : Nat
  sleeps : List SleepEvent
  store_error : Option StoreError
deriving Repr, DecidableEq

/-- The retry loop of `acquire`, with `fuel` iterations remaining, `n` the
current `attempt_number`, and `last` the value `is_success` holds on entry
(`False` initially; relevant only if the loop runs out of iterations).
Each iteration performs the conditional put (a raised store error
propagates immediately), computes the backoff, the elapsed time and the
remaining budget, clamps the sleep, and retries only when the put returned
`False` and the remaining budget is positive. -/
def acquire_loop (put : Nat → Except StoreError Bool) (timeout_ms : Int)
    (elapsed : Nat → Int) : Nat → Nat → Bool → LoopResult
  | 0, _, last => ⟨last, 0, [], none⟩
  | fuel + 1, n, _ =>
    match put n with
    | .error e => ⟨false, 1, [], some e⟩
    | .ok is_success =>
      let time_left_ms := timeout_ms - elapsed n
      let sleep_ms := min time_left_ms (backoff_ms n)
      if !is_success && decide (time_left_ms > 0) then
        let r := acquire_loop put timeout_ms elapsed fuel (n + 1) is_success
        ⟨r.is_success, r.put_attempts + 1, ⟨n, sleep_ms⟩ :: r.sleeps, r.store_error⟩
      else
        ⟨is_success, 1, [], none⟩

/-- `max_loop_iter = 1000`. -/
def max_loop_iter : Nat := 1000

/-- The retry loop as run by one `acquire` call: `max_loop_iter` iterations
of fuel, starting at `attempt_number = 0` with `is_success = False`. -/
def acquireLoopOf (st : EphemeralLock) (elapsed : Nat → Int) : LoopResult :=
  acquire_loop st.consul.putResult st.acquire_timeout_ms elapsed max_loop_iter 0 false

/-- How a call to `acquire` ends: a normal return, a raised
`LockAcquisitionException`, a propagated store error, or a failed
`assert`. -/
inductive AcquireOutcome
  | returned (b : Bool)
  | lockAcquisitionException (msg : String)
  | storeException (e : StoreError)
  | assertionError (msg : String)
deriving Repr, DecidableEq

/-- Trace of one `acquire` call: its outcome, the post-state of the
instance, the number of `session.create` calls performed and the arguments
they were given, the number of put attempts, the sleeps executed, and the
`session.destroy` calls performed (none: `acquire` never destroys). -/
structure AcquireTrace where
  outcome : AcquireOutcome
  lock : EphemeralLock
  session_creates : Nat
  session_params : Option SessionParams
  put_attempts : Nat
  sleeps : List SleepEvent
  destroy_calls : List (Option String)

/-- `EphemeralLock.acquire(fail_hard)`.  Asserts the instance was not
already started; creates one session with `lock_delay = 0`,
`ttl = lock_timeout_seconds`, `behavior = 'delete'` (a raised store error
propagates); stores the session id and marks the instance started; runs
the retry loop (`_acquire_consul_key` first asserts the session id is
truthy); finally raises `LockAcquisitionException` when unsuccessful and
`fail_hard`, else returns the success flag. -/
def EphemeralLock.acquire (st : EphemeralLock) (fail_hard : Bool)
    (elapsed : Nat → Int) : AcquireTrace :=
  if st.started_locking then
    ⟨.assertionError "can only lock once", st, 0, none, 0, [], []⟩
  else
    let params : SessionParams := ⟨0, st.lock_timeout_seconds, "delete"⟩
    match st.consul.sessionCreateResult with
    | .error e => ⟨.storeException e, st, 1, some params, 0, [], []⟩
    | .ok sid =>
      let st1 : EphemeralLock :=
        { st with session_id := some sid, started_locking := true }
      if sid = "" then
        ⟨.assertionError "must have a session id to acquire lock", st1, 1,
          some params, 0, [], []⟩
      else
        let r := acquireLoopOf st elapsed
        match r.store_error with
        | some e =>
          ⟨.storeException e, st1, 1, some params, r.put_attempts, r.sleeps, []⟩
        | none =>
          if !r.is_success && fail_hard then
            ⟨.lockAcquisitionException ("Failed to acquire " ++ st.full_key),
              st1, 1, some params, r.put_attempts, r.sleeps, []⟩
          else
            ⟨.returned r.is_success, st1, 1, some params, r.put_attempts,
              r.sleeps, []⟩

/-- Trace of one `release` call: the returned boolean, the
`session.destroy` calls performed (with the session id passed), and the
post-state. -/
structure ReleaseTrace where
  result : Bool
  destroy_calls : List (Option String)
  lock : EphemeralLock

/-- `EphemeralLock.release()`: return `False` doing nothing if the
instance never started locking, else destroy the session and return
whatever the store reports. -/
def EphemeralLock.release (st : EphemeralLock) : ReleaseTrace :=
  if st.started_locking = false then
    ⟨false, [], st⟩
  else
    ⟨st.consul.destroyResult st.session_id, [st.session_id], st⟩

/-- Whether the protected region of a `with lock.hold():` block completes
normally or raises. -/
inductive BodyResult
  | normal
  | raised
deriving Repr, DecidableEq

/-- How a `with lock.hold():` block ends. -/
inductive HoldOutcome
  | completed
  | bodyException
  | acquireException (o : AcquireOutcome)
deriving Repr, DecidableEq

/-- Trace of one `hold` use: the inner acquire trace, whether `release`
was invoked on the way out, its trace when it was, and the overall
outcome. -/
structure HoldTrace where
  acquireTrace : AcquireTrace
  release_invoked : Bool
  releaseTrace : Option ReleaseTrace
  outcome : HoldOutcome

/-- `EphemeralLock.hold()`: `try: acquire(fail_hard=True); yield
finally: release()`.  If `acquire` raises, the `finally` clause still runs
`release` and the exception propagates; if `acquire` returns, the body
runs and `release` runs on both its exit paths. -/
def EphemeralLock.hold (st : EphemeralLock) (elapsed : Nat → Int)
    (body : BodyResult) : HoldTrace :=
  let a := st.acquire true elapsed
  match a.outcome with
  | .returned _ =>
    let r := a.lock.release
    { acquireTrace := a
      release_invoked := true
      releaseTrace := some r
      outcome := match body with
        | .normal => .completed
        | .raised => .bodyException }
  | o =>
    let r := a.lock.release
    ⟨a, true, some r, .acquireException o⟩

/-- The `session.destroy` calls performed on the way out of a `hold`. -/
def holdDestroyCalls (h : HoldTrace) : List (Option String) :=
  match h.releaseTrace with
  | some r => r.destroy_calls
  | none => []

/-- Boolean success test for `Except`. -/
def exceptOk (e : Except α β) : Bool :=
  match e with
  | .ok _ => true
  | .error _ => false

/-- "A conditional put succeeded during the retry loop" of an `acquire`
run: some attempt executed by the loop returned `True`. -/
def putSucceeded (st : EphemeralLock) (elapsed : Nat → Int) : Prop :=
  ∃ j, j < (acquireLoopOf st elapsed).put_attempts ∧
    st.consul.putResult j = .ok true

/-! ### Concrete store behaviours and locks used to instantiate theorems -/

/-- A client whose conditional put always succeeds. -/
def clientPutTrue : ConsulClient :=
  ⟨.ok "session-1", fun _ => .ok true, fun _ => true⟩

/-- A client whose conditional put always returns `False` (the key is held
by someone else). -/
def clientPutFalse : ConsulClient :=
  ⟨.ok "session-1", fun _ => .ok false, fun _ => true⟩

/-- A client whose session creation raises a store error. -/
def clientCreateRaises : ConsulClient :=
  ⟨.error ⟨"connection refused"⟩, fun _ => .ok true, fun _ => true⟩

/-- A client whose conditional put raises a store error. -/
def clientPutRaises : ConsulClient :=
  ⟨.ok "session-1", fun _ => .error ⟨"connection reset"⟩, fun _ => true⟩

/-- A freshly constructed lock on `key1` with a zero acquire budget and a
10 second session TTL, over the given client. -/
def lockOf (c : ConsulClient) : EphemeralLock :=
  ⟨c, "key1", "locks/ephemeral/key1", 10, 0, none, false⟩

/-- A freshly constructed lock on `key1` with a 200 ms acquire budget over
the always-contended client. -/
def lockContended : EphemeralLock :=
  ⟨clientPutFalse, "key1", "locks/ephemeral/key1", 10, 200, none, false⟩

/-- A clock whose elapsed measurement is always 0 ms. -/
def zeroElapsed : Nat → Int := fun _ => 0

/-- A clock measuring 30 ms of elapsed time per executed attempt. -/
def elapsedLinear : Nat → Int := fun n => 30 * ((n : Int) + 1)

/-! ### Helper lemmas about the retry loop -/

/-- Every sleep executed by the loop was clamped to
`min(time_left_ms, 50 * attempt ^ 2)`, happened while the remaining budget
was positive, and followed a put that returned `False`. -/
theorem acquire_loop_sleeps_spec (put : Nat → Except StoreError Bool)
    (t : Int) (el : Nat → Int) :
    ∀ fuel n last, ∀ ev ∈ (acquire_loop put t el fuel n last).sleeps,
      ev.sleep_ms = min (t - el ev.attempt) (backoff_ms ev.attempt) ∧
      0 < t - el ev.attempt ∧ put ev.attempt = .ok false := by
  intro fuel
  induction fuel with
  | zero =>
    intro n last ev hev
    simp [acquire_loop] at hev
  | succ f ih =>
    intro n last ev hev
    cases hp : put n with
    | error e =>
      simp [acquire_loop, hp] at hev
    | ok ok =>
      simp only [acquire_loop, hp] at hev
      by_cases hc : (!ok && decide (t - el n > 0)) = true
      · rw [if_pos hc] at hev
        simp only [Bool.and_eq_true, Bool.not_eq_true', decide_eq_true_eq] at hc
        rcases List.mem_cons.mp hev with h | h
        · subst h
          exact ⟨rfl, hc.2, by rw [hp, hc.1]⟩
        · exact ih (n + 1) ok ev h
      · rw [if_neg hc] at hev
        simp at hev

/-- When the loop completes without a store error, its success flag is
`true` exactly when one of the executed puts returned `True`. -/
theorem acquire_loop_success_iff (put : Nat → Except StoreError Bool)
    (t : Int) (el : Nat → Int) :
    ∀ fuel n, (acquire_loop put t el fuel n false).store_error = none →
      ((acquire_loop put t el fuel n false).is_success = true ↔
        ∃ j, j < (acquire_loop put t el fuel n false).put_attempts ∧
          put (n + j) = .ok true) := by
  intro fuel
  induction fuel with
  | zero =>
    intro n _
    simp [acquire_loop]
  | succ f ih =>
    intro n herr
    cases hp : put n with
    | error e =>
      simp [acquire_loop, hp] at herr
    | ok ok =>
      simp only [acquire_loop, hp] at herr ⊢
      by_cases hc : (!ok && decide (t - el n > 0)) = true
      · rw [if_pos hc] at herr ⊢
        simp only [Bool.and_eq_true, Bool.not_eq_true', decide_eq_true_eq] at hc
        obtain ⟨hok, _⟩ := hc
        subst hok
        simp only at herr ⊢
        rw [ih (n + 1) herr]
        constructor
        · rintro ⟨j, hj, hput⟩
          refine ⟨j + 1, by omega, ?_⟩
          rw [show n + (j + 1) = n + 1 + j by omega]
          exact hput
        · rintro ⟨j, hj, hput⟩
          cases j with
          | zero =>
            rw [Nat.add_zero, hp] at hput
            simp at hput
          | succ j =>
            refine ⟨j, by omega, ?_⟩
            rw [show n + 1 + j = n + (j + 1) by omega]
            exact hput
      · rw [if_neg hc] at herr ⊢
        simp only
        constructor
        · intro hok
          subst hok
          exact ⟨0, by omega, by rw [Nat.add_zero]; exact hp⟩
        · rintro ⟨j, hj, hput⟩
          have hj0 : j = 0 := by omega
          subst hj0
          rw [Nat.add_zero, hp] at hput
          exact Except.ok.inj hput

/-- When the loop propagates a store error, the erroring put was the last
call made and no sleep was executed at or after it. -/
theorem acquire_loop_error_spec (put : Nat → Except StoreError Bool)
    (t : Int) (el : Nat → Int) :
    ∀ fuel n last e,
      (acquire_loop put t el fuel n last).store_error = some e →
      0 < (acquire_loop put t el fuel n last).put_attempts ∧
      put (n + ((acquire_loop put t el fuel n last).put_attempts - 1)) = .error e ∧
      (acquire_loop put t el fuel n last).sleeps.length =
        (acquire_loop put t el fuel n last).put_attempts - 1 := by
  intro fuel
  induction fuel with
  | zero =>
    intro n last e herr
    simp [acquire_loop] at herr
  | succ f ih =>
    intro n last e herr
    cases hp : put n with
    | error e' =>
      simp only [acquire_loop, hp] at herr ⊢
      simp only [Option.some.injEq] at herr
      subst herr
      exact ⟨by omega, by simpa using hp, rfl⟩
    | ok ok =>
      simp only [acquire_loop, hp] at herr ⊢
      by_cases hc : (!ok && decide (t - el n > 0)) = true
      · rw [if_pos hc] at herr ⊢
        simp only at herr ⊢
        obtain ⟨hpos, hput, hlen⟩ := ih (n + 1) ok e herr
        refine ⟨by omega, ?_, ?_⟩
        · rw [show n + ((acquire_loop put t el f (n + 1) ok).put_attempts + 1 - 1)
              = n + 1 + ((acquire_loop put t el f (n + 1) ok).put_attempts - 1) by omega]
          exact hput
        · simp only [List.length_cons, hlen]
          omega
      · rw [if_neg hc] at herr
        simp at herr

/-- A put that returns `False` when the remaining budget is already gone
ends the loop at once: one attempt, no sleep. -/
theorem acquire_loop_budget_exhausted (put : Nat → Except StoreError Bool)
    (t : Int) (el : Nat → Int) (fuel n : Nat) (last : Bool)
    (hput : put n = .ok false) (htl : t - el n ≤ 0) :
    acquire_loop put t el (fuel + 1) n last = ⟨false, 1, [], none⟩ := by
  have hc : (!false && decide (t - el n > 0)) = false := by
    simp
    omega
  simp [acquire_loop, hput, hc]
  omega

/-! ### Helper lemmas unfolding `acquire` -/

/-- A call to `acquire` on an already-started instance fails its reuse
assert immediately: no session creation, no put, state unchanged. -/
theorem acquire_of_started (st : EphemeralLock) (fh : Bool) (el : Nat → Int)
    (h : st.started_locking = true) :
    st.acquire fh el =
      ⟨.assertionError "can only lock once", st, 0, none, 0, [], []⟩ := by
  simp [EphemeralLock.acquire, h]

/-- When session creation raises, `acquire` propagates the error with the
instance state unchanged (not yet started). -/
theorem acquire_of_create_error (st : EphemeralLock) (fh : Bool)
    (el : Nat → Int) (e : StoreError) (hfresh : st.started_locking = false)
    (hc : st.consul.sessionCreateResult = .error e) :
    st.acquire fh el =
      ⟨.storeException e, st, 1, some ⟨0, st.lock_timeout_seconds, "delete"⟩,
        0, [], []⟩ := by
  simp [EphemeralLock.acquire, hfresh, hc]

/-- When session creation succeeds, the post-state of `acquire` stores the
returned session id and is marked started, whatever happens afterwards. -/
theorem acquire_lock_of_create_ok (st : EphemeralLock) (fh : Bool)
    (el : Nat → Int) (sid : String) (hfresh : st.started_locking = false)
    (hc : st.consul.sessionCreateResult = .ok sid) :
    (st.acquire fh el).lock =
      { st with session_id := some sid, started_locking := true } := by
  simp only [EphemeralLock.acquire, hfresh, hc]
  by_cases hs : sid = ""
  · simp [hs]
  · simp only [if_neg hs, Bool.false_eq_true, if_false]
    cases herr : (acquireLoopOf st el).store_error with
    | some e => simp [herr]
    | none =>
      simp only [herr]
      by_cases hb : (!(acquireLoopOf st el).is_success && fh) = true
      · simp [hb]
      · simp [hb]

/-- When session creation succeeds with a truthy session id and the loop
ends without a store error, `acquire` raises `LockAcquisitionException` or
returns the loop's success flag according to `fail_hard`. -/
theorem acquire_of_loop_done (st : EphemeralLock) (fh : Bool)
    (el : Nat → Int) (sid : String) (hfresh : st.started_locking = false)
    (hc : st.consul.sessionCreateResult = .ok sid) (hs : sid ≠ "")
    (herr : (acquireLoopOf st el).store_error = none) :
    st.acquire fh el =
      if !(acquireLoopOf st el).is_success && fh then
        ⟨.lockAcquisitionException ("Failed to acquire " ++ st.full_key),
          { st with session_id := some sid, started_locking := true }, 1,
          some ⟨0, st.lock_timeout_seconds, "delete"⟩,
          (acquireLoopOf st el).put_attempts, (acquireLoopOf st el).sleeps, []⟩
      else
        ⟨.returned (acquireLoopOf st el).is_success,
          { st with session_id := some sid, started_locking := true }, 1,
          some ⟨0, st.lock_timeout_seconds, "delete"⟩,
          (acquireLoopOf st el).put_attempts, (acquireLoopOf st el).sleeps, []⟩ := by
  simp only [EphemeralLock.acquire, hfresh, hc, if_neg hs, herr,
    Bool.false_eq_true, if_false]

/-- When session creation succeeds with a truthy session id and the loop
propagates a store error, `acquire` re-raises that error. -/
theorem acquire_of_loop_error (st : EphemeralLock) (fh : Bool)
    (el : Nat → Int) (sid : String) (e : StoreError)
    (hfresh : st.started_locking = false)
    (hc : st.consul.sessionCreateResult = .ok sid) (hs : sid ≠ "")
    (herr : (acquireLoopOf st el).store_error = some e) :
    st.acquire fh el =
      ⟨.storeException e,
        { st with session_id := some sid, started_locking := true }, 1,
        some ⟨0, st.lock_timeout_seconds, "delete"⟩,
        (acquireLoopOf st el).put_attempts, (acquireLoopOf st el).sleeps, []⟩ := by
  simp only [EphemeralLock.acquire, hfresh, hc, if_neg hs, herr,
    Bool.false_eq_true, if_false]

/-- The sleeps recorded by an `acquire` trace are either empty or exactly
the sleeps of its retry loop run. -/
theorem acquire_sleeps_sub (st : EphemeralLock) (fh : Bool)
    (el : Nat → Int) :
    (st.acquire fh el).sleeps = [] ∨
    (st.acquire fh el).sleeps = (acquireLoopOf st el).sleeps := by
  by_cases h1 : st.started_locking = true
  · left
    rw [acquire_of_started st fh el h1]
  · have h1' : st.started_locking = false := by simpa using h1
    cases hc : st.consul.sessionCreateResult with
    | error e =>
      left
      rw [acquire_of_create_error st fh el e h1' hc]
    | ok sid =>
      by_cases hs : sid = ""
      · left
        simp [EphemeralLock.acquire, h1', hc, hs]
      · cases herr : (acquireLoopOf st el).store_error with
        | some e =>
          right
          rw [acquire_of_loop_error st fh el sid e h1' hc hs herr]
        | none =>
          right
          rw [acquire_of_loop_done st fh el sid h1' hc hs herr]
          split <;> rfl

/-- `acquire` performs exactly one `session.create` call with lock-delay
`0`, ttl `lock_timeout_seconds` and behavior `'delete'` when creation
succeeds; it never calls `session.destroy`. -/
theorem acquire_trace_of_create_ok (st : EphemeralLock) (fh : Bool)
    (el : Nat → Int) (sid : String) (hfresh : st.started_locking = false)
    (hc : st.consul.sessionCreateResult = .ok sid) :
    (st.acquire fh el).session_creates = 1 ∧
    (st.acquire fh el).session_params =
      some ⟨0, st.lock_timeout_seconds, "delete"⟩ := by
  simp only [EphemeralLock.acquire, hfresh, hc, Bool.false_eq_true, if_false]
  by_cases hs : sid = ""
  · simp [hs]
  · simp only [if_neg hs]
    cases herr : (acquireLoopOf st el).store_error with
    | some e => simp [herr]
    | none =>
      by_cases hb : (!(acquireLoopOf st el).is_success && fh) = true <;>
        simp [herr, hb]

/-- `acquire` never performs a `session.destroy` call. -/
theorem acquire_no_destroy (st : EphemeralLock) (fh : Bool)
    (el : Nat → Int) : (st.acquire fh el).destroy_calls = [] := by
  by_cases h1 : st.started_locking = true
  · rw [acquire_of_started st fh el h1]
  · have h1' : st.started_locking = false := by simpa using h1
    cases hc : st.consul.sessionCreateResult with
    | error e => rw [acquire_of_create_error st fh el e h1' hc]
    | ok sid =>
      by_cases hs : sid = ""
      · simp [EphemeralLock.acquire, h1', hc, hs]
      · cases herr : (acquireLoopOf st el).store_error with
        | some e => rw [acquire_of_loop_error st fh el sid e h1' hc hs herr]
        | none =>
          rw [acquire_of_loop_done st fh el sid h1' hc hs herr]
          split <;> rfl

/-! ### Claim theorems -/

/-- C1: on a not-yet-started instance whose session creation succeeds (with
a truthy session id) and whose retry loop ends without a store error,
`acquire(fail_hard)` returns `True` if a conditional put succeeded during
the retry loop; it returns `False` only when `fail_hard` is `False` and
the loop ended without a successful put; and when `fail_hard` is `True`
and no put succeeded, it raises `LockAcquisitionException` instead of
returning `False`. -/
theorem acquire_result_classification (st : EphemeralLock) (fail_hard : Bool)
    (elapsed : Nat → Int) (sid : String)
    (hfresh : st.started_locking = false)
    (hcreate : st.consul.sessionCreateResult = .ok sid) (hsid : sid ≠ "")
    (hdone : (acquireLoopOf st elapsed).store_error = none) :
    (putSucceeded st elapsed →
      (st.acquire fail_hard elapsed).outcome = .returned true) ∧
    ((st.acquire fail_hard elapsed).outcome = .returned false →
      fail_hard = false ∧ ¬ putSucceeded st elapsed) ∧
    (fail_hard = true → ¬ putSucceeded st elapsed →
      (st.acquire fail_hard elapsed).outcome =
        .lockAcquisitionException ("Failed to acquire " ++ st.full_key)) := by
  have hiff : (acquireLoopOf st elapsed).is_success = true ↔
      putSucceeded st elapsed := by
    have h := acquire_loop_success_iff st.consul.putResult
      st.acquire_timeout_ms elapsed max_loop_iter 0
      (by unfold acquireLoopOf at hdone; exact hdone)
    unfold putSucceeded acquireLoopOf
    simpa using h
  rw [acquire_of_loop_done st fail_hard elapsed sid hfresh hcreate hsid hdone]
  by_cases hsucc : (acquireLoopOf st elapsed).is_success = true
  · simp only [hsucc, Bool.not_true, Bool.false_and, Bool.false_eq_true,
      if_false]
    refine ⟨fun _ => trivial, fun hcontra => ?_, fun _ hns => ?_⟩
    · simp at hcontra
    · exact absurd (hiff.mp hsucc) hns
  · have hsucc' : (acquireLoopOf st elapsed).is_success = false :=
      Bool.not_eq_true _ ▸ Bool.eq_false_iff.mpr hsucc
    cases fail_hard with
    | true =>
      simp only [hsucc', Bool.not_false, Bool.and_true, if_true]
      refine ⟨fun hp => absurd (hiff.mpr hp) hsucc, fun hcontra => ?_,
        fun _ _ => trivial⟩
      · simp at hcontra
    | false =>
      simp only [hsucc', Bool.and_false, Bool.false_eq_true, if_false]
      refine ⟨fun hp => absurd (hiff.mpr hp) hsucc, fun _ => ?_,
        fun hcontra _ => by simp at hcontra⟩
      exact ⟨trivial, fun hp => hsucc (hiff.mpr hp)⟩

/-- C1 witness: with an always-succeeding put, `acquire(fail_hard=True)`
returns `True`. -/
theorem acquire_result_classification_witness :
    ((lockOf clientPutTrue).acquire true zeroElapsed).outcome =
      .returned true := by
  have h := acquire_result_classification (lockOf clientPutTrue) true
    zeroElapsed "session-1" rfl rfl (by decide) (by decide)
  exact h.1 ⟨0, by decide, rfl⟩

/-- C3: on an instance with `acquire_timeout_ms = 0`, an `acquire` call
whose first conditional put returns `False` makes exactly one put attempt
and exits the retry loop without sleeping. -/
theorem acquire_zero_timeout_one_attempt (st : EphemeralLock)
    (fail_hard : Bool) (elapsed : Nat → Int) (sid : String)
    (hfresh : st.started_locking = false)
    (htimeout : st.acquire_timeout_ms = 0)
    (hcreate : st.consul.sessionCreateResult = .ok sid) (hsid : sid ≠ "")
    (hput : st.consul.putResult 0 = .ok false)
    (helapsed : 0 ≤ elapsed 0) :
    (st.acquire fail_hard elapsed).put_attempts = 1 ∧
    (st.acquire fail_hard elapsed).sleeps = [] := by
  have hloop : acquireLoopOf st elapsed = ⟨false, 1, [], none⟩ := by
    unfold acquireLoopOf max_loop_iter
    rw [htimeout]
    exact acquire_loop_budget_exhausted _ _ _ 999 0 false hput (by omega)
  rw [acquire_of_loop_done st fail_hard elapsed sid hfresh hcreate hsid
    (by rw [hloop])]
  rw [hloop]
  cases fail_hard <;> simp

/-- C3 witness: the always-contended client with a zero budget makes one
attempt and never sleeps. -/
theorem acquire_zero_timeout_one_attempt_witness :
    ((lockOf clientPutFalse).acquire true zeroElapsed).put_attempts = 1 ∧
    ((lockOf clientPutFalse).acquire true zeroElapsed).sleeps = [] :=
  acquire_zero_timeout_one_attempt (lockOf clientPutFalse) true zeroElapsed
    "session-1" rfl rfl rfl (by decide) rfl (by decide)

/-- C4 counterexample: on an instance whose first `acquire` call raised
during session creation, the second `acquire` call does not raise the
reuse-violation assert; it performs a fresh session creation attempt and
propagates the store error again. -/
theorem acquire_second_call_after_create_error :
    (((lockOf clientCreateRaises).acquire true zeroElapsed).lock.acquire
        true zeroElapsed).outcome = .storeException ⟨"connection refused"⟩ ∧
    (((lockOf clientCreateRaises).acquire true zeroElapsed).lock.acquire
        true zeroElapsed).session_creates = 1 := by
  constructor <;> rfl

/-- C4 amended: when the first `acquire` call got past session creation
(the store returned a session id), a second `acquire` call raises the
reuse-violation assert before creating a session or attempting any put,
leaving the state unchanged. -/
theorem acquire_twice_reuse_guard (st : EphemeralLock) (fh1 fh2 : Bool)
    (el1 el2 : Nat → Int) (sid : String)
    (hfresh : st.started_locking = false)
    (hcreate : st.consul.sessionCreateResult = .ok sid) :
    ((st.acquire fh1 el1).lock.acquire fh2 el2).outcome =
      .assertionError "can only lock once" ∧
    ((st.acquire fh1 el1).lock.acquire fh2 el2).session_creates = 0 ∧
    ((st.acquire fh1 el1).lock.acquire fh2 el2).put_attempts = 0 ∧
    ((st.acquire fh1 el1).lock.acquire fh2 el2).lock =
      (st.acquire fh1 el1).lock := by
  rw [acquire_lock_of_create_ok st fh1 el1 sid hfresh hcreate]
  rw [acquire_of_started _ fh2 el2 rfl]
  exact ⟨rfl, rfl, rfl, rfl⟩

/-- C4 amended witness: a contended first call (which created a session)
makes the second call fail the reuse assert. -/
theorem acquire_twice_reuse_guard_witness :
    (((lockOf clientPutFalse).acquire false zeroElapsed).lock.acquire true
        zeroElapsed).outcome = .assertionError "can only lock once" :=
  (acquire_twice_reuse_guard (lockOf clientPutFalse) false true zeroElapsed
    zeroElapsed "session-1" rfl rfl).1

/-- C5: `release` on an instance that never started locking returns
`False`, performs no store calls and leaves the instance state (session
id, started flag, everything) unchanged. -/
theorem release_never_locked_noop (st : EphemeralLock)
    (hfresh : st.started_locking = false) :
    st.release.result = false ∧ st.release.destroy_calls = [] ∧
    st.release.lock = st := by
  simp [EphemeralLock.release, hfresh]

/-- C5 witness at a concrete never-locked instance. -/
theorem release_never_locked_noop_witness :
    (lockOf clientPutTrue).release.result = false ∧
    (lockOf clientPutTrue).release.destroy_calls = [] ∧
    (lockOf clientPutTrue).release.lock = lockOf clientPutTrue :=
  release_never_locked_noop (lockOf clientPutTrue) rfl

/-- C2 counterexample: with an always-contended key and a zero acquire
budget, the `acquire(fail_hard=True)` performed by `hold` raises
`LockAcquisitionException` — acquisition did not succeed — and yet
`release` is invoked on the way out, destroying the created session. -/
theorem hold_release_invoked_after_failed_acquire :
    ((lockOf clientPutFalse).hold zeroElapsed .normal).outcome =
      .acquireException
        (.lockAcquisitionException "Failed to acquire locks/ephemeral/key1") ∧
    ((lockOf clientPutFalse).hold zeroElapsed .normal).release_invoked =
      true ∧
    holdDestroyCalls ((lockOf clientPutFalse).hold zeroElapsed .normal) =
      [some "session-1"] := by
  refine ⟨by decide, by decide, by decide⟩

/-- C2 amended: scoped `hold` invokes `release` on every exit path, also
when the `acquire(fail_hard=True)` performed on entry raised; that
`release` performs a `session.destroy` store call exactly when the acquire
got past session creation, and is a no-op otherwise. -/
theorem hold_always_invokes_release (st : EphemeralLock)
    (elapsed : Nat → Int) (body : BodyResult)
    (hfresh : st.started_locking = false) :
    (st.hold elapsed body).release_invoked = true ∧
    (∀ sid, st.consul.sessionCreateResult = .ok sid →
      holdDestroyCalls (st.hold elapsed body) = [some sid]) ∧
    (∀ e, st.consul.sessionCreateResult = .error e →
      holdDestroyCalls (st.hold elapsed body) = []) := by
  refine ⟨?_, ?_, ?_⟩
  · simp only [EphemeralLock.hold]
    cases h : (st.acquire true elapsed).outcome <;> simp [h]
  · intro sid hc
    have hlock := acquire_lock_of_create_ok st true elapsed sid hfresh hc
    simp only [EphemeralLock.hold, holdDestroyCalls]
    cases h : (st.acquire true elapsed).outcome <;>
      simp [h, hlock, EphemeralLock.release]
  · intro e hc
    have ha := acquire_of_create_error st true elapsed e hfresh hc
    simp only [EphemeralLock.hold, holdDestroyCalls]
    rw [ha]
    simp [EphemeralLock.release, hfresh]

/-- C2 amended witness: a successful `hold` invokes `release`, which
destroys the session. -/
theorem hold_always_invokes_release_witness :
    ((lockOf clientPutTrue).hold zeroElapsed .normal).release_invoked =
      true ∧
    holdDestroyCalls ((lockOf clientPutTrue).hold zeroElapsed .normal) =
      [some "session-1"] := by
  have h := hold_always_invokes_release (lockOf clientPutTrue) zeroElapsed
    .normal rfl
  exact ⟨h.1, h.2.1 "session-1" rfl⟩

/-- C6: when the client and both timeouts resolve (explicitly or through
the defaults), construction succeeds exactly when the resolved
`lock_timeout_seconds` lies in `[10, 3600]` and the key is non-empty. -/
theorem init_validation (key : String) (atm lts : Option Int)
    (cc : Option ConsulClient) (d : Defaults) (c : ConsulClient) (A L : Int)
    (hcc : coerce_required cc d.consul_client "consul_client" = .ok c)
    (hatm : coerce_required atm d.acquire_timeout_ms "acquire_timeout_ms" =
      .ok A)
    (hlts : coerce_required lts d.lock_timeout_seconds
      "lock_timeout_seconds" = .ok L) :
    exceptOk (EphemeralLock.init key atm lts cc d) = true ↔
      (key ≠ "" ∧ 10 ≤ L ∧ L ≤ 3600) := by
  unfold EphemeralLock.init
  rw [hcc]
  simp only [Bind.bind, Except.bind]
  by_cases hk : key = ""
  · simp [hk, exceptOk]
  · simp only [if_neg hk]
    rw [hlts]
    simp only [Except.bind]
    rw [hatm]
    simp only [Except.bind]
    by_cases hb : 10 ≤ L ∧ L ≤ 3600
    · simp [hb, exceptOk, hk]
    · simp only [if_neg hb]
      simp [exceptOk, hk]
      omega

/-- C6 witness: ttl 10 and 3600 construct, 9 and 3601 fail, and an empty
key fails, with the stock defaults and an explicit client. -/
theorem init_validation_witness :
    exceptOk (EphemeralLock.init "key1" none (some 10) (some clientPutTrue)
      (stockDefaults none)) = true ∧
    exceptOk (EphemeralLock.init "key1" none (some 3600) (some clientPutTrue)
      (stockDefaults none)) = true ∧
    exceptOk (EphemeralLock.init "key1" none (some 9) (some clientPutTrue)
      (stockDefaults none)) = false ∧
    exceptOk (EphemeralLock.init "key1" none (some 3601) (some clientPutTrue)
      (stockDefaults none)) = false ∧
    exceptOk (EphemeralLock.init "" none (some 10) (some clientPutTrue)
      (stockDefaults none)) = false := by
  refine ⟨?_, by decide, by decide, by decide, by decide⟩
  exact (init_validation "key1" none (some 10) (some clientPutTrue)
    (stockDefaults none) clientPutTrue 0 10 rfl rfl rfl).mpr
    ⟨by decide, by decide, by decide⟩

/-- C7: every `acquire` call on a fresh instance whose session creation
succeeds performs exactly one `session.create` call, with lock-delay `0`,
ttl the instance's `lock_timeout_seconds` and invalidate behavior
`'delete'`; the returned session id is stored in `session_id` and the
instance is then marked started. -/
theorem acquire_session_creation (st : EphemeralLock) (fail_hard : Bool)
    (elapsed : Nat → Int) (sid : String)
    (hfresh : st.started_locking = false)
    (hcreate : st.consul.sessionCreateResult = .ok sid) :
    (st.acquire fail_hard elapsed).session_creates = 1 ∧
    (st.acquire fail_hard elapsed).session_params =
      some ⟨0, st.lock_timeout_seconds, "delete"⟩ ∧
    (st.acquire fail_hard elapsed).lock.session_id = some sid ∧
    (st.acquire fail_hard elapsed).lock.started_locking = true := by
  obtain ⟨h1, h2⟩ := acquire_trace_of_create_ok st fail_hard elapsed sid
    hfresh hcreate
  have hlock := acquire_lock_of_create_ok st fail_hard elapsed sid hfresh
    hcreate
  exact ⟨h1, h2, by rw [hlock], by rw [hlock]⟩

/-- C7 witness at a concrete client. -/
theorem acquire_session_creation_witness :
    ((lockOf clientPutTrue).acquire true zeroElapsed).session_creates = 1 ∧
    ((lockOf clientPutTrue).acquire true zeroElapsed).session_params =
      some ⟨0, (lockOf clientPutTrue).lock_timeout_seconds, "delete"⟩ ∧
    ((lockOf clientPutTrue).acquire true zeroElapsed).lock.session_id =
      some "session-1" ∧
    ((lockOf clientPutTrue).acquire true zeroElapsed).lock.started_locking =
      true :=
  acquire_session_creation (lockOf clientPutTrue) true zeroElapsed
    "session-1" rfl rfl

/-- C8: the backoff delay computed for attempt `n` is the deterministic
quadratic `50 * n ^ 2` milliseconds, monotonically increasing in the
attempt number, and every sleep the loop actually performs is that backoff
clamped to the remaining budget `acquire_timeout_ms - elapsed`, so no
single sleep exceeds the remaining budget at that point. -/
theorem acquire_backoff_clamped (st : EphemeralLock) (fail_hard : Bool)
    (elapsed : Nat → Int) :
    (∀ n, backoff_ms n = 50 * (n : Int) ^ 2) ∧
    (∀ m n : Nat, m ≤ n → backoff_ms m ≤ backoff_ms n) ∧
    (∀ ev ∈ (st.acquire fail_hard elapsed).sleeps,
      ev.sleep_ms =
        min (st.acquire_timeout_ms - elapsed ev.attempt)
          (backoff_ms ev.attempt) ∧
      ev.sleep_ms ≤ st.acquire_timeout_ms - elapsed ev.attempt) := by
  refine ⟨fun n => rfl, ?_, ?_⟩
  · intro m n hmn
    unfold backoff_ms
    have h2 : (m : Int) ^ 2 ≤ (n : Int) ^ 2 := by
      have hm : (0 : Int) ≤ (m : Int) := Int.natCast_nonneg m
      exact pow_le_pow_left₀ hm (by exact_mod_cast hmn) 2
    linarith
  · intro ev hev
    rcases acquire_sleeps_sub st fail_hard elapsed with h | h
    · rw [h] at hev
      simp at hev
    · rw [h] at hev
      obtain ⟨heq, hpos, _⟩ := acquire_loop_sleeps_spec st.consul.putResult
        st.acquire_timeout_ms elapsed max_loop_iter 0 false ev hev
      exact ⟨heq, heq ▸ min_le_left _ _⟩

/-- C8 witness: on the contended 200 ms-budget lock with a 30 ms-per-
attempt clock, attempt 3 slept exactly the clamped 80 ms. -/
theorem acquire_backoff_clamped_witness :
    (⟨3, 80⟩ : SleepEvent) ∈
      (lockContended.acquire false elapsedLinear).sleeps ∧
    (80 : Int) =
      min (lockContended.acquire_timeout_ms - elapsedLinear 3)
        (backoff_ms 3) ∧
    (80 : Int) ≤ lockContended.acquire_timeout_ms - elapsedLinear 3 ∧
    backoff_ms 2 ≤ backoff_ms 3 := by
  have h := acquire_backoff_clamped lockContended false elapsedLinear
  have hmem : (⟨3, 80⟩ : SleepEvent) ∈
      (lockContended.acquire false elapsedLinear).sleeps := by decide
  obtain ⟨heq, hle⟩ := h.2.2 ⟨3, 80⟩ hmem
  exact ⟨hmem, heq, hle, h.2.1 2 3 (by omega)⟩

/-- C9: only a put that logically failed (the store returned `False`) is
ever retried — every executed sleep follows such a put; a store error
raised during session creation or during a put is not caught: it becomes
the call's outcome unmodified, the erroring call is the last store call
made, and no sleep is executed after it. -/
theorem acquire_store_errors_propagate (st : EphemeralLock)
    (fail_hard : Bool) (elapsed : Nat → Int)
    (hfresh : st.started_locking = false) :
    (∀ e, st.consul.sessionCreateResult = .error e →
      (st.acquire fail_hard elapsed).outcome = .storeException e ∧
      (st.acquire fail_hard elapsed).put_attempts = 0) ∧
    (∀ sid, st.consul.sessionCreateResult = .ok sid → sid ≠ "" →
      (∀ ev ∈ (st.acquire fail_hard elapsed).sleeps,
        st.consul.putResult ev.attempt = .ok false) ∧
      (∀ e, (st.acquire fail_hard elapsed).outcome = .storeException e →
        st.consul.putResult
          ((st.acquire fail_hard elapsed).put_attempts - 1) = .error e ∧
        (st.acquire fail_hard elapsed).sleeps.length =
          (st.acquire fail_hard elapsed).put_attempts - 1)) := by
  constructor
  · intro e hc
    rw [acquire_of_create_error st fail_hard elapsed e hfresh hc]
    exact ⟨rfl, rfl⟩
  · intro sid hc hs
    constructor
    · intro ev hev
      rcases acquire_sleeps_sub st fail_hard elapsed with h | h
      · rw [h] at hev
        simp at hev
      · rw [h] at hev
        exact (acquire_loop_sleeps_spec st.consul.putResult
          st.acquire_timeout_ms elapsed max_loop_iter 0 false ev hev).2.2
    · intro e houtcome
      cases herr : (acquireLoopOf st elapsed).store_error with
      | none =>
        rw [acquire_of_loop_done st fail_hard elapsed sid hfresh hc hs herr]
          at houtcome
        split at houtcome <;> simp at houtcome
      | some e' =>
        rw [acquire_of_loop_error st fail_hard elapsed sid e' hfresh hc hs
          herr] at houtcome ⊢
        have he : e' = e := by
          simpa using houtcome
        subst he
        obtain ⟨_, hput, hlen⟩ := acquire_loop_error_spec
          st.consul.putResult st.acquire_timeout_ms elapsed max_loop_iter 0
          false e' herr
        simp only [Nat.zero_add] at hput
        exact ⟨hput, hlen⟩

/-- C9 witness: a raising put ends the call with that store error and no
sleep after the erroring call. -/
theorem acquire_store_errors_propagate_witness :
    ((lockOf clientPutRaises).acquire true zeroElapsed).outcome =
      .storeException ⟨"connection reset"⟩ ∧
    ((lockOf clientPutRaises).acquire true zeroElapsed).sleeps.length =
      ((lockOf clientPutRaises).acquire true zeroElapsed).put_attempts -
        1 := by
  have h := acquire_store_errors_propagate (lockOf clientPutRaises) true
    zeroElapsed rfl
  have hout : ((lockOf clientPutRaises).acquire true zeroElapsed).outcome =
      .storeException ⟨"connection reset"⟩ := by decide
  exact ⟨hout,
    ((h.2 "session-1" rfl (by decide)).2 ⟨"connection reset"⟩ hout).2⟩

/-- C10: after an `acquire` on a fresh instance: `acquire` itself performs
no session destruction; when session creation succeeded the instance ends
marked started with the session id stored — whether or not the key was
obtained — and a subsequent `release` destroys exactly that session and
returns the store's answer; when session creation raised, the instance
remains not started and a subsequent `release` returns `False` with no
store call; and a second `acquire` is rejected by the reuse assert exactly
when the first call got past session creation. -/
theorem acquire_post_state_release (st : EphemeralLock)
    (fail_hard fh2 : Bool) (elapsed el2 : Nat → Int)
    (hfresh : st.started_locking = false) :
    (st.acquire fail_hard elapsed).destroy_calls = [] ∧
    (∀ sid, st.consul.sessionCreateResult = .ok sid →
      (st.acquire fail_hard elapsed).lock.started_locking = true ∧
      (st.acquire fail_hard elapsed).lock.session_id = some sid ∧
      (st.acquire fail_hard elapsed).lock.release.destroy_calls =
        [some sid] ∧
      (st.acquire fail_hard elapsed).lock.release.result =
        st.consul.destroyResult (some sid)) ∧
    (∀ e, st.consul.sessionCreateResult = .error e →
      (st.acquire fail_hard elapsed).lock.started_locking = false ∧
      (st.acquire fail_hard elapsed).lock.session_id = st.session_id ∧
      (st.acquire fail_hard elapsed).lock.release.result = false ∧
      (st.acquire fail_hard elapsed).lock.release.destroy_calls = []) ∧
    (((st.acquire fail_hard elapsed).lock.acquire fh2 el2).outcome =
        .assertionError "can only lock once" ↔
      ∃ sid, st.consul.sessionCreateResult = .ok sid) := by
  refine ⟨acquire_no_destroy st fail_hard elapsed, ?_, ?_, ?_⟩
  · intro sid hc
    have hlock := acquire_lock_of_create_ok st fail_hard elapsed sid hfresh
      hc
    rw [hlock]
    refine ⟨rfl, rfl, ?_, ?_⟩ <;> simp [EphemeralLock.release]
  · intro e hc
    rw [acquire_of_create_error st fail_hard elapsed e hfresh hc]
    refine ⟨hfresh, rfl, ?_, ?_⟩ <;> simp [EphemeralLock.release, hfresh]
  · constructor
    · intro h
      cases hc : st.consul.sessionCreateResult with
      | ok sid => exact ⟨sid, rfl⟩
      | error e =>
        rw [acquire_of_create_error st fail_hard elapsed e hfresh hc] at h
        rw [acquire_of_create_error st fh2 el2 e hfresh hc] at h
        simp at h
    · rintro ⟨sid, hc⟩
      rw [acquire_lock_of_create_ok st fail_hard elapsed sid hfresh hc,
        acquire_of_started _ fh2 el2 rfl]

/-- C10 witness: a contended acquire leaves a started instance whose
release destroys the created session, and the acquire itself destroyed
nothing. -/
theorem acquire_post_state_release_witness :
    ((lockOf clientPutFalse).acquire false
        zeroElapsed).lock.release.destroy_calls = [some "session-1"] ∧
    ((lockOf clientPutFalse).acquire false zeroElapsed).destroy_calls =
      [] := by
  have h := acquire_post_state_release (lockOf clientPutFalse) false true
    zeroElapsed zeroElapsed rfl
  exact ⟨(h.2.1 "session-1" rfl).2.2.1, h.1⟩

